import Mathlib

/-!
Shallow embedding of the request-dispatch pipeline of the Ractochat LLM
gateway backend (`backend/src`): the model catalog (`model_router/catalog.rs`),
access control (`model_router/accounts.rs`), the policy engine
(`governance.rs`), and the dispatch/stream handlers with quota enforcement,
request clamping and the retry/fallback execution loop (`routes/chat.rs`).

Modelling conventions, chosen once for the whole file:
* Rust `String` is Lean `String`; the string operations the code uses
  (`to_lowercase`, `trim`, `split(',')`, `contains`, `replace`) are
  re-implemented over `List Char` so that they compute by kernel reduction.
* Rust `f64`/`f32` money and temperature values are modelled as exact
  rationals `Frac` (numerator/positive denominator, not normalised); the
  code only ever adds and compares these values, which `Frac` mirrors.
* The `regex` crate is external to the embedded code; regex matching and
  regex-wide replacement are abstracted as an oracle `RegexOracle`
  (compile failure is folded into the oracle: a failing pattern simply
  never matches and replaces nothing, as in the code).
* The PII redactor (`pii.rs`, entirely regex-driven) is likewise abstracted
  as an oracle `String → String × Bool`; no claim depends on its behaviour.
* `thread_rng().gen_range(0..total)` is modelled by an explicit `roll : ℕ`
  parameter reduced modulo the total weight.
* SQLite storage is modelled as an in-memory `DbState`; the narrow queries
  the pipeline uses (`ensure_conversation`, `insert_message`,
  `record_policy_hits`, `list_policies`, `usage_since`) act on it.
  `usage_since` results arrive through an `Except Unit UsageStats` oracle
  (the code treats a failing read as zero usage).  Message ids (UUIDs in
  the code) are modelled as a fresh counter.
* Upstream provider calls (`llm.chat`) are an oracle indexed by the number
  of upstream calls already made, so that theorems can count calls.
* Wall-clock latencies recorded into health stats are irrelevant to every
  claim and are not modelled inside the execution loop.
-/

/-! ## Character-list string primitives (computable replacements) -/

/-- Unicode lowercasing of a string, `str::to_lowercase`. -/
def lowerStr (s : String) : String := ⟨s.data.map Char.toLower⟩

/-- Split a character list at every occurrence of `c`, Rust `str::split(c)`. -/
def splitCharList (c : Char) : List Char → List (List Char)
  | [] => [[]]
  | x :: xs =>
    let r := splitCharList c xs
    if x = c then [] :: r
    else
      match r with
      | h :: t => (x :: h) :: t
      | [] => [[x]]

/-- Substring test on character lists, Rust `str::contains(&str)`. -/
def containsList (needle : List Char) : List Char → Bool
  | [] => needle.isEmpty
  | h :: t => needle.isPrefixOf (h :: t) || containsList needle t

/-- `str::contains` lifted to `String`. -/
def containsStr (haystack needle : String) : Bool :=
  containsList needle.data haystack.data

/-- Whitespace trimming, Rust `str::trim`. -/
def trimStr (s : String) : String :=
  ⟨((s.data.dropWhile Char.isWhitespace).reverse.dropWhile Char.isWhitespace).reverse⟩

/-- Fuel-driven helper for `replaceStr`: replace every non-overlapping
occurrence of `pat` (non-empty) left to right. -/
def replaceAux (pat rep : List Char) : ℕ → List Char → List Char
  | 0, s => s
  | n + 1, s =>
    match s with
    | [] => []
    | h :: t =>
      if pat.isPrefixOf s ∧ pat ≠ [] then rep ++ replaceAux pat rep n (s.drop pat.length)
      else h :: replaceAux pat rep n t

/-- Helper for the empty-pattern case of Rust `str::replace`: the
replacement is inserted at every character boundary. -/
def interleaveRep (rep : List Char) : List Char → List Char
  | [] => rep
  | h :: t => rep ++ h :: interleaveRep rep t

/-- Rust `str::replace(pat, rep)`: every non-overlapping occurrence,
left to right; an empty pattern matches at every boundary. -/
def replaceStr (s pat rep : String) : String :=
  if pat.data = [] then ⟨interleaveRep rep.data s.data⟩
  else ⟨replaceAux pat.data rep.data s.data.length s.data⟩

/-- `eq_ignore_ascii_case`, modelled as equality after lowercasing. -/
def eqIgnoreCase (a b : String) : Bool := lowerStr a == lowerStr b

/-- Lexicographic strict order on character lists by code point
(agrees with Rust's `String` ordering on the ASCII labels the catalog uses). -/
def charListLt : List Char → List Char → Bool
  | [], [] => false
  | [], _ :: _ => true
  | _ :: _, [] => false
  | a :: as, b :: bs => a.val < b.val || (a = b && charListLt as bs)

/-- Non-strict string comparison used for `Vec<String>::sort`. -/
def strLeB (a b : String) : Bool := !(charListLt b.data a.data)

/-! ## Stable sorting (Rust `sort`/`sort_by` are stable) -/

/-- Insert `x` before the first element it is `le`-related to; together with
`stableSortLe` this is a stable ascending sort. -/
def insertLe (le : α → α → Bool) (x : α) : List α → List α
  | [] => [x]
  | y :: ys => if le x y then x :: y :: ys else y :: insertLe le x ys

/-- Stable ascending insertion sort by a total preorder `le`. -/
def stableSortLe (le : α → α → Bool) (l : List α) : List α :=
  l.foldr (insertLe le) []

/-! ## Exact-rational stand-in for the `f64`/`f32` values of the code -/

/-- An exact rational (numerator, positive denominator, not normalised):
the model of the `f64` cent amounts and `f32` temperatures in the code,
which are only ever added and compared. -/
structure Frac where
  num : ℤ
  den : ℕ
  deriving DecidableEq, Repr

/-- Embed a natural number (e.g. a `u32` cap cast to `f64`). -/
def Frac.ofNat (n : ℕ) : Frac := ⟨n, 1⟩

/-- Addition of exact rationals. -/
def Frac.add (a b : Frac) : Frac := ⟨a.num * b.den + b.num * a.den, a.den * b.den⟩

/-- Strict `<` comparison (cross multiplication; denominators are positive
for every value the model constructs). -/
def fracLt (a b : Frac) : Bool := a.num * (b.den : ℤ) < b.num * (a.den : ℤ)

/-- Non-strict `≤` comparison. -/
def fracLe (a b : Frac) : Bool := a.num * (b.den : ℤ) ≤ b.num * (a.den : ℤ)

/-! ## Error type (`error.rs`) -/

/-- `AppError` of `error.rs` (the four kinds the core produces). -/
inductive AppError
  | badRequest (msg : String)
  | config (msg : String)
  | upstream (msg : String)
  | internal (msg : String)
  deriving DecidableEq, Repr

/-- The `Display` rendering of `AppError` (`thiserror` format strings). -/
def AppError.message : AppError → String
  | .badRequest m => "bad request: " ++ m
  | .config m => "configuration error: " ++ m
  | .upstream m => "upstream error: " ++ m
  | .internal m => "internal error: " ++ m

/-! ## Model catalog (`model_router/catalog.rs`) -/

/-- `CatalogEntry`: one upstream model with its per-1k prices in cents. -/
structure CatalogEntry where
  provider : String
  id : String
  prompt_price_per_1k : Frac
  completion_price_per_1k : Frac
  deriving DecidableEq, Repr

/-- `CatalogEntry::estimate_cents`. -/
def CatalogEntry.estimate_cents (e : CatalogEntry) : Frac :=
  e.prompt_price_per_1k.add e.completion_price_per_1k

/-- `AliasTarget`: weighted alias target. -/
structure AliasTarget where
  model : String
  weight : ℕ
  deriving DecidableEq, Repr

/-- `AliasRule`: a weighted list of targets. -/
structure AliasRule where
  targets : List AliasTarget
  deriving DecidableEq, Repr

/-- The mathematical (unbounded) sum of an alias rule's target weights. -/
def rawWeightSum (ts : List AliasTarget) : ℕ := (ts.map AliasTarget.weight).sum

/-- The total weight as `AliasRule::pick` computes it: an iterator
`sum::<u32>()`, whose u32 additions wrap, modelled with an explicit
`% 2 ^ 32` at every step (overflow panics only in the debug profile;
the model takes the release wrapping semantics). -/
def sumWeights (ts : List AliasTarget) : ℕ :=
  ts.foldl (fun acc t => (acc + t.weight) % 2 ^ 32) 0

/-- The cumulative-selection loop of `AliasRule::pick`: return the first
target whose weight interval contains the roll. -/
def pickLoop : List AliasTarget → ℕ → Option String
  | [], _ => none
  | t :: ts, roll => if roll < t.weight then some t.model else pickLoop ts (roll - t.weight)

/-- `AliasRule::pick`: `None` when the wrapping u32 total is zero,
otherwise cumulative selection with a uniform roll in `[0, total)` (the
rng is modelled by the explicit `roll` parameter reduced modulo the
total). -/
def AliasRule.pick (rule : AliasRule) (roll : ℕ) : Option String :=
  let total := sumWeights rule.targets
  if total = 0 then none else pickLoop rule.targets (roll % total)

/-- `HealthStat` (the `updated_at` wall-clock field is not modelled; it does
not enter the ordering used for candidate selection). -/
structure HealthStat where
  last_latency_ms : Option ℕ := none
  last_ok : Bool := false
  successes : ℕ := 0
  failures : ℕ := 0
  deriving DecidableEq, Repr

/-- `HealthStat::score`: `(last_ok ? 0 : 1, latency with None = ∞)`. -/
def HealthStat.okScore (h : HealthStat) : ℕ := if h.last_ok then 0 else 1

/-- `≤` on the optional-latency component, `None` (`u128::MAX` in the code)
sorting last. -/
def latencyLe : Option ℕ → Option ℕ → Bool
  | none, none => true
  | none, some _ => false
  | some _, none => true
  | some a, some b => a ≤ b

/-- The total preorder `HealthStat::cmp` induces (lexicographic on the
score). -/
def healthLe (a b : HealthStat) : Bool :=
  a.okScore < b.okScore || (a.okScore = b.okScore && latencyLe a.last_latency_ms b.last_latency_ms)

/-- `RoutedModel`: the result of catalog resolution. -/
structure RoutedModel where
  request_label : String
  resolved_model : String
  provider : String
  estimate_cents : Frac
  fallback_chain : List String
  deriving DecidableEq, Repr

/-- The state behind the catalog's reader/writer lock (`CatalogState`);
the hash maps are association lists with unique keys. -/
structure CatalogState where
  models : List (String × CatalogEntry)
  aliases : List (String × AliasRule)
  fallbacks : List (String × List String)
  health : List (String × HealthStat)
  deriving Repr

/-- `CatalogState::pick_alias`: lowercase lookup, then weighted pick. -/
def CatalogState.pick_alias (st : CatalogState) (roll : ℕ) (label : String) : Option String :=
  (st.aliases.lookup (lowerStr label)).bind fun rule => rule.pick roll

/-- The canonical target of a requested label: the alias pick if it
produced a target, otherwise the label itself. -/
def CatalogState.resolveTarget (st : CatalogState) (roll : ℕ) (requested : String) : String :=
  (st.pick_alias roll requested).getD requested

/-- Health stat for an id, defaulting like `unwrap_or_default`. -/
def CatalogState.healthOf (st : CatalogState) (id : String) : HealthStat :=
  (st.health.lookup id).getD {}

/-- The allowlist-filtered fallback chain of the canonical target
(the `chain` local of `Catalog::resolve` after its `retain`). -/
def CatalogState.allowedChain (st : CatalogState) (roll : ℕ) (requested : String)
    (allowlist : List String) : List String :=
  let target := st.resolveTarget roll requested
  let allow_lower := allowlist.map lowerStr
  ((st.fallbacks.lookup target).getD []).filter fun m => allow_lower.contains (lowerStr m)

/-- `Catalog::resolve`: canonicalize through aliases, admit the primary
target by case-insensitive allowlist membership, append the
allowlist-filtered fallback chain's existing entries, stable-sort by
health, select the head, and return the chain minus the selected id. -/
def CatalogState.resolve (st : CatalogState) (roll : ℕ) (requested : String)
    (allowlist : List String) : Option RoutedModel :=
  let target := st.resolveTarget roll requested
  let allow_lower := allowlist.map lowerStr
  let primaryCandidates : List CatalogEntry :=
    if allow_lower.contains (lowerStr target) then
      match st.models.lookup target with
      | some entry => [entry]
      | none => []
    else []
  let chain := st.allowedChain roll requested allowlist
  let candidates := primaryCandidates ++ chain.filterMap fun fb => st.models.lookup fb
  let sorted := stableSortLe (fun a b => healthLe (st.healthOf a.id) (st.healthOf b.id)) candidates
  match sorted.head? with
  | none => none
  | some entry =>
    some { request_label := requested
           resolved_model := entry.id
           provider := entry.provider
           estimate_cents := entry.estimate_cents
           fallback_chain := chain.filter fun m => m ≠ entry.id }

/-- `Catalog::all_aliases`: the sorted union of model ids and alias labels. -/
def CatalogState.all_aliases (st : CatalogState) : List String :=
  stableSortLe strLeB (st.models.map Prod.fst ++ st.aliases.map Prod.fst)

/-- `Catalog::entry`. -/
def CatalogState.entry (st : CatalogState) (id : String) : Option CatalogEntry :=
  st.models.lookup id

/-- `Catalog::seed`: the process-local catalog seeded at startup. -/
def Catalog.seed : CatalogState :=
  { models :=
      [("gpt-4-turbo-preview", ⟨"openai", "gpt-4-turbo-preview", ⟨5, 10⟩, ⟨4, 1⟩⟩),
       ("claude-3.5-sonnet", ⟨"anthropic", "claude-3-5-sonnet-20240620", ⟨3, 10⟩, ⟨35, 10⟩⟩),
       ("claude-3-haiku", ⟨"anthropic", "claude-3-haiku-20240307", ⟨8, 100⟩, ⟨3, 1⟩⟩)]
    aliases :=
      [("gpt-4.1", ⟨[⟨"gpt-4-turbo-preview", 100⟩]⟩),
       ("gpt-latest", ⟨[⟨"gpt-4-turbo-preview", 100⟩]⟩),
       ("cheap", ⟨[⟨"gpt-4o-mini", 100⟩]⟩),
       ("ops-fast", ⟨[⟨"claude-3-haiku-20240307", 100⟩]⟩)]
    fallbacks :=
      [("gpt-4-turbo-preview", ["gpt-4o-mini", "claude-3-5-sonnet-20240620"]),
       ("claude-3-5-sonnet-20240620", ["claude-3-haiku-20240307", "gpt-4o-mini"])]
    health :=
      [("gpt-4-turbo-preview", {}), ("claude-3.5-sonnet", {}), ("claude-3-haiku", {})] }

/-! ## Access control (`model_router/accounts.rs`) -/

/-- `AccountStatus`. -/
inductive AccountStatus
  | active
  | suspended
  deriving DecidableEq, Repr

/-- `ModelPriceCap`. -/
structure ModelPriceCap where
  model : String
  max_cents : ℕ
  deriving DecidableEq, Repr

/-- `AccountAccess`. -/
structure AccountAccess where
  id : String
  email : String
  display_name : String
  allowed_models : List String
  status : AccountStatus
  default_model : Option String
  max_cost_cents : Option ℕ
  guardrail_prompt : Option String
  req_per_day : Option ℕ
  tokens_per_day : Option ℕ
  model_price_caps : List ModelPriceCap
  deriving DecidableEq, Repr

/-- The account-store plus catalog pair behind `AccessControl`. -/
structure AccessControl where
  accounts : List AccountAccess
  catalog : CatalogState

/-- Looking up the caller's account record (`accounts.iter().find`). -/
def AccessControl.account_for (ac : AccessControl) (user_id : Option String) :
    Option AccountAccess :=
  user_id.bind fun uid => ac.accounts.find? fun a => a.id == uid

/-- `AccessControl::guardrail_for`. -/
def AccessControl.guardrail_for (ac : AccessControl) (user_id : Option String) :
    Option String :=
  (ac.account_for user_id).bind fun a => a.guardrail_prompt

/-- A single-quote character, used inside error messages. -/
def squote : String := ⟨[Char.ofNat 39]⟩

/-- `AccessControl::resolve_model`: allowlist selection, catalog resolve,
then the suspended-account and global cost-ceiling checks (in the code the
resolve failure is reported before the account status is ever consulted). -/
def AccessControl.resolve_model (ac : AccessControl) (roll : ℕ) (user_id : Option String)
    (requested : String) : Except AppError RoutedModel :=
  let account := ac.account_for user_id
  let allowlist := (account.map AccountAccess.allowed_models).getD ac.catalog.all_aliases
  match ac.catalog.resolve roll requested allowlist with
  | none =>
    .error (.badRequest ("model " ++ squote ++ requested ++ squote ++ " not allowed or not available"))
  | some picked =>
    match account with
    | some acct =>
      if acct.status ≠ .active then .error (.badRequest "account suspended")
      else
        match acct.max_cost_cents with
        | some max_cents =>
          if fracLt (Frac.ofNat max_cents) picked.estimate_cents then
            .error (.badRequest "requested model exceeds account cost limit")
          else .ok picked
        | none => .ok picked
    | none => .ok picked

/-- `AccessControl::routing_plan`: the primary plus one `RoutedModel` per
fallback-chain id whose catalog entry exists, each with an empty chain. -/
def AccessControl.routing_plan (ac : AccessControl) (roll : ℕ) (user_id : Option String)
    (requested : String) : Except AppError (RoutedModel × List RoutedModel) :=
  match ac.resolve_model roll user_id requested with
  | .error e => .error e
  | .ok routed =>
    .ok (routed, routed.fallback_chain.filterMap fun fb =>
      (ac.catalog.entry fb).map fun entry =>
        { request_label := requested
          resolved_model := entry.id
          provider := entry.provider
          estimate_cents := entry.estimate_cents
          fallback_chain := [] })

/-- `seeded_accounts()`: the three accounts seeded at startup. -/
def seeded_accounts : List AccountAccess :=
  [{ id := "demo-user", email := "demo@local", display_name := "Demo User"
     allowed_models := ["gpt-4.1", "gpt-4o-mini", "claude-3.5-sonnet"]
     status := .active, default_model := some "gpt-latest"
     max_cost_cents := some 10
     guardrail_prompt := some "You are a helpful assistant. Refuse to return secrets, credentials, or unsafe code. Keep responses concise."
     req_per_day := some 500, tokens_per_day := some 500000
     model_price_caps := [⟨"gpt-4.1", 50⟩, ⟨"claude-3.5-sonnet", 30⟩] },
   { id := "ops-team", email := "ops@internal", display_name := "Ops Team"
     allowed_models := ["gpt-4.1", "claude-3.5-sonnet", "claude-3-haiku"]
     status := .active, default_model := some "ops-fast"
     max_cost_cents := none
     guardrail_prompt := some "You assist the ops team. Be precise, avoid hallucinations, and flag risky actions."
     req_per_day := some 2000, tokens_per_day := some 2000000
     model_price_caps := [] },
   { id := "guest", email := "guest@example.com", display_name := "Guest"
     allowed_models := ["gpt-4o-mini"]
     status := .suspended, default_model := some "gpt-4o-mini"
     max_cost_cents := some 2
     guardrail_prompt := some "Do not answer with sensitive data. Keep replies short and safe for guests."
     req_per_day := some 50, tokens_per_day := some 50000
     model_price_caps := [⟨"gpt-4o-mini", 5⟩] }]

/-- The access-control state as seeded at startup (`AccessControl::new`). -/
def seedAccess : AccessControl := ⟨seeded_accounts, Catalog.seed⟩

/-! ## Policy engine (`governance.rs`) -/

/-- `Policy` rows as loaded from storage. -/
structure Policy where
  id : String
  name : String
  description : Option String := none
  match_type : String
  pattern : String
  action : String
  applies_to : String
  enabled : Bool
  created_at : String := ""
  deriving DecidableEq, Repr

/-- `PolicyHitDraft`. -/
structure PolicyHitDraft where
  policy_id : String
  policy_name : String
  action : String
  deriving DecidableEq, Repr

/-- `PolicyEvalResult`. -/
structure PolicyEvalResult where
  redacted : Option String
  hits : List PolicyHitDraft
  blocked : Option PolicyHitDraft
  deriving DecidableEq, Repr

/-- The abstract interface to the `regex` crate: `isMatch p t` is
`Regex::new(p).ok().map(|re| re.is_match(t)).unwrap_or(false)` and
`replaceAll p t` is the regex-wide replacement by `[REDACTED]`, returning
`t` unchanged when the pattern does not compile. -/
structure RegexOracle where
  isMatch : String → String → Bool
  replaceAll : String → String → String

/-- The degenerate oracle for runs that involve no regex policy. -/
def noRegex : RegexOracle := ⟨fun _ _ => false, fun _ t => t⟩

/-- Whether a policy applies to the given role (`"any"` or a
case-insensitive role match). -/
def policyApplies (p : Policy) (role : String) : Bool :=
  eqIgnoreCase p.applies_to "any" || eqIgnoreCase p.applies_to role

/-- The `matched` computation of `evaluate_policies` over the current text:
regex via the oracle, `contains_all` requires every comma-separated token
(trimmed, lowercased) as a substring, anything else any token. -/
def policyMatches (rx : RegexOracle) (p : Policy) (current : String) : Bool :=
  match p.match_type with
  | "regex" => rx.isMatch p.pattern current
  | "contains_all" =>
    (splitCharList ',' p.pattern.data).all fun tok =>
      containsStr (lowerStr current) (lowerStr (trimStr ⟨tok⟩))
  | _ =>
    (splitCharList ',' p.pattern.data).any fun tok =>
      containsStr (lowerStr current) (lowerStr (trimStr ⟨tok⟩))

/-- One redaction step: regex-wide replacement for regex policies, plain
whole-pattern string substitution otherwise, by the literal `[REDACTED]`. -/
def policyRedact (rx : RegexOracle) (p : Policy) (current : String) : String :=
  match p.match_type with
  | "regex" => rx.replaceAll p.pattern current
  | _ => replaceStr current p.pattern "[REDACTED]"

/-- The iteration of `evaluate_policies`: walk the policies in storage
order over the current (possibly already-redacted) text, stopping at the
first blocking match. -/
def evalPoliciesGo (rx : RegexOracle) (role : String) :
    List Policy → String → Option String → List PolicyHitDraft → PolicyEvalResult
  | [], _, redacted, hits => ⟨redacted, hits, none⟩
  | p :: ps, current, redacted, hits =>
    if ¬ p.enabled then evalPoliciesGo rx role ps current redacted hits
    else if ¬ policyApplies p role then evalPoliciesGo rx role ps current redacted hits
    else if ¬ policyMatches rx p current then evalPoliciesGo rx role ps current redacted hits
    else
      let hit : PolicyHitDraft := ⟨p.id, p.name, p.action⟩
      if p.action = "block" then ⟨redacted, hits, some hit⟩
      else if p.action = "redact" then
        let replaced := policyRedact rx p current
        evalPoliciesGo rx role ps replaced (some replaced) (hits ++ [hit])
      else evalPoliciesGo rx role ps current redacted (hits ++ [hit])

/-- `evaluate_policies(policies, role, text)` of `governance.rs`. -/
def evaluate_policies (rx : RegexOracle) (policies : List Policy) (role text : String) :
    PolicyEvalResult :=
  evalPoliciesGo rx role policies text none []

/-! ## LLM request/response types (`llm/mod.rs`) -/

/-- `Provider`. -/
inductive Provider
  | openai
  | anthropic
  deriving DecidableEq, Repr

/-- `Provider`'s `Display` rendering. -/
def Provider.str : Provider → String
  | .openai => "openai"
  | .anthropic => "anthropic"

/-- Message roles. -/
inductive Role
  | system
  | user
  | assistant
  deriving DecidableEq, Repr

/-- `LlmMessage`. -/
structure LlmMessage where
  role : Role
  content : String
  deriving DecidableEq, Repr

/-- `LlmRequest` (the deserialized chat request body). -/
structure LlmRequest where
  conversation_id : Option String
  provider : Provider
  model : String
  messages : List LlmMessage
  max_tokens : Option ℕ
  temperature : Option Frac
  deriving DecidableEq, Repr

/-- `LlmResponse`. -/
structure LlmResponse where
  provider : Provider
  model : String
  content : String
  tokens_input : Option ℕ
  tokens_output : Option ℕ
  cost : Option Frac
  deriving DecidableEq, Repr

/-- `LlmError` (reqwest transport errors carried as their message). -/
inductive LlmError
  | missingApiKey (msg : String)
  | invalidRequest (msg : String)
  | http (msg : String)
  | unexpectedStatus (code : ℕ) (body : String)
  | providerErr (msg : String)
  deriving DecidableEq, Repr

/-- `From<LlmError> for AppError` (`error.rs`). -/
def llmErrorToApp : LlmError → AppError
  | .missingApiKey m => .config m
  | .invalidRequest m => .badRequest m
  | .unexpectedStatus _ body => .upstream body
  | .http m => .upstream m
  | .providerErr m => .upstream m

/-! ## Dispatch helpers (`routes/chat.rs`) -/

/-- `RoutingTrace`. -/
structure RoutingTrace where
  selected_model : String
  provider : String
  attempts : List String
  used_fallback : Bool
  deriving DecidableEq, Repr

/-- `provider_from_str`: only `"openai"` and `"anthropic"` are recognized. -/
def provider_from_str (provider : String) : Except AppError Provider :=
  match provider with
  | "openai" => .ok .openai
  | "anthropic" => .ok .anthropic
  | other => .error (.badRequest ("unknown provider for model routing: " ++ other))

/-- `should_fallback`: upstream and internal errors are retryable. -/
def should_fallback : AppError → Bool
  | .upstream _ => true
  | .internal _ => true
  | _ => false

/-- The temperature branch of `clamp_request`: below 0 becomes 0, above 2
becomes 2, anything else is unchanged. -/
def clampTemp (t : Frac) : Frac :=
  if fracLt t (Frac.ofNat 0) then Frac.ofNat 0
  else if fracLt (Frac.ofNat 2) t then Frac.ofNat 2
  else t

/-- `clamp_request`: cap `max_tokens` at 8192 (for either provider) and
clamp `temperature` into `[0, 2]`; absent fields are left untouched. -/
def clamp_request (req : LlmRequest) : LlmRequest :=
  let max_tokens_cap : ℕ :=
    match req.provider with
    | .openai => 8192
    | .anthropic => 8192
  let req :=
    match req.max_tokens with
    | some m => { req with max_tokens := some (if max_tokens_cap < m then max_tokens_cap else m) }
    | none => req
  match req.temperature with
  | some t => { req with temperature := some (clampTemp t) }
  | none => req

/-- `UsageStats` (storage returns `i64` columns). -/
structure UsageStats where
  requests : ℤ
  tokens_input : ℤ
  tokens_output : ℤ
  deriving DecidableEq, Repr

/-- `enforce_limits`: admit without an account; reject when the first
case-insensitively matching per-model price cap is exceeded; admit without
touching storage when no daily limit is set; otherwise read trailing-24h
usage (a failed read counts as zero) and reject on either daily limit.
The second component records whether `usage_since` was consulted. -/
def enforce_limits (account : Option AccountAccess) (primary : RoutedModel)
    (usage_res : Except Unit UsageStats) : Except AppError Unit × Bool :=
  match account with
  | none => (.ok (), false)
  | some acct =>
    let capHit :=
      match acct.model_price_caps.find? (fun c => eqIgnoreCase c.model primary.resolved_model) with
      | some cap => fracLt (Frac.ofNat cap.max_cents) primary.estimate_cents
      | none => false
    if capHit then (.error (.badRequest "requested model exceeds account price cap"), false)
    else if acct.req_per_day = none ∧ acct.tokens_per_day = none then (.ok (), false)
    else
      let usage := usage_res.toOption.getD ⟨0, 0, 0⟩
      match acct.req_per_day with
      | some limit =>
        if (limit : ℤ) ≤ usage.requests then
          (.error (.badRequest "account request limit reached for today"), true)
        else
          match acct.tokens_per_day with
          | some tlimit =>
            if (tlimit : ℤ) ≤ usage.tokens_input + usage.tokens_output then
              (.error (.badRequest "account token limit reached for today"), true)
            else (.ok (), true)
          | none => (.ok (), true)
      | none =>
        match acct.tokens_per_day with
        | some tlimit =>
          if (tlimit : ℤ) ≤ usage.tokens_input + usage.tokens_output then
            (.error (.badRequest "account token limit reached for today"), true)
          else (.ok (), true)
        | none => (.ok (), true)

/-- The upstream capability: one `llm.chat` outcome per call, indexed by
the number of upstream calls already made in the request. -/
def Upstream : Type := ℕ → LlmRequest → Except LlmError LlmResponse

/-- `route_with_fallbacks`, unrolled over the two retries per candidate:
build the per-candidate request (model, parsed provider tag, clamping),
push the `"<model>#<retry+1>"` attempt label, call upstream, and on a
retryable failure retry once and then fall through to the next candidate.
Returns the outcome together with the total number of upstream calls. -/
def routeGo (oracle : Upstream) (base : LlmRequest) :
    List RoutedModel → ℕ → List String → Bool → ℕ →
    (Except AppError (LlmResponse × RoutingTrace)) × ℕ
  | [], _, _, _, n => (.error (.internal "no available model after routing attempts"), n)
  | c :: rest, idx, attempts, used_fb, n =>
    match provider_from_str c.provider with
    | .error e => (.error e, n)
    | .ok prov =>
      let req := clamp_request { base with model := c.resolved_model, provider := prov }
      let attempts1 := attempts ++ [c.resolved_model ++ "#" ++ toString (0 + 1)]
      match oracle n req with
      | .ok resp =>
        (.ok (resp,
          { selected_model := c.resolved_model, provider := c.provider
            attempts := attempts1
            used_fallback := used_fb || decide (0 < idx) || false }), n + 1)
      | .error e1 =>
        let a1 := llmErrorToApp e1
        if should_fallback a1 then
          let attempts2 := attempts1 ++ [c.resolved_model ++ "#" ++ toString (1 + 1)]
          match oracle (n + 1) req with
          | .ok resp =>
            (.ok (resp,
              { selected_model := c.resolved_model, provider := c.provider
                attempts := attempts2
                used_fallback := used_fb || decide (0 < idx) || true }), n + 2)
          | .error e2 =>
            let a2 := llmErrorToApp e2
            if should_fallback a2 ∧ rest ≠ [] then
              routeGo oracle base rest (idx + 1) attempts2 true (n + 2)
            else (.error a2, n + 2)
        else (.error a1, n + 1)

/-- `route_with_fallbacks(llm, router, base, plan)`. -/
def route_with_fallbacks (oracle : Upstream) (base : LlmRequest)
    (plan : List RoutedModel) : (Except AppError (LlmResponse × RoutingTrace)) × ℕ :=
  routeGo oracle base plan 0 [] false 0

/-! ## Storage model (the narrow surface of `db.rs` the pipeline uses) -/

/-- `MessageInsert` (the `id` is supplied by the store in the model, as the
code always passes `id: None`). -/
structure MessageInsert where
  conversation_id : String
  role : String
  content : String
  provider : Option String
  model : Option String
  tokens_input : Option ℕ
  tokens_output : Option ℕ
  user_id : Option String
  deriving DecidableEq, Repr

/-- `PolicyHitInsert`. -/
structure PolicyHitInsert where
  message_id : String
  policy_id : String
  policy_name : String
  action : String
  deriving DecidableEq, Repr

/-- The persisted state: conversation rows, message rows (with their ids),
policy-hit rows, the policy table, and a fresh-id counter standing in for
UUID generation. -/
structure DbState where
  conversations : List (String × Option String)
  messages : List (ℕ × MessageInsert)
  policy_hits : List PolicyHitInsert
  policies : List Policy
  next_message_id : ℕ
  deriving Repr

/-- `ensure_conversation` (`INSERT OR IGNORE`): insert-if-missing. -/
def ensure_conversation (db : DbState) (id : String) (user_id : Option String) : DbState :=
  if db.conversations.any (fun c => c.1 == id) then db
  else { db with conversations := db.conversations ++ [(id, user_id)] }

/-- `insert_message`: append the row, returning its fresh id. -/
def insert_message (db : DbState) (m : MessageInsert) : ℕ × DbState :=
  (db.next_message_id,
   { db with messages := db.messages ++ [(db.next_message_id, m)]
             next_message_id := db.next_message_id + 1 })

/-- `record_policy_hits` (transactional batch insert). -/
def record_policy_hits (db : DbState) (hits : List PolicyHitInsert) : DbState :=
  { db with policy_hits := db.policy_hits ++ hits }

/-! ## The dispatch pipeline (`routes/chat.rs`) -/

/-- `ChatResponse`. -/
structure ChatResponse where
  conversation_id : String
  message : LlmResponse
  routing : RoutingTrace
  deriving DecidableEq, Repr

/-- The per-request environment of a dispatch: shared state, identity
derived from the auth token, the oracles for randomness, regexes, PII,
usage reads and the upstream providers, and the fresh conversation id the
code would mint with `Uuid::new_v4`. -/
structure ChatEnv where
  access : AccessControl
  roll : ℕ
  userId : Option String
  freshConvId : String
  rx : RegexOracle
  pii : String → String × Bool
  usage : Except Unit UsageStats
  upstream : Upstream

/-- Replace the content of the last message (`body.messages.last_mut()`). -/
def setLastContent : List LlmMessage → String → List LlmMessage
  | [], _ => []
  | [m], c => [{ m with content := c }]
  | m :: m2 :: rest, c => m :: setLastContent (m2 :: rest) c

/-- The tail of the non-streaming pipeline after policy/PII rewriting:
persist the user row, persist policy hits (failures swallowed), execute
with fallbacks, persist the assistant row, return the response. -/
def chatTail (env : ChatEnv) (db : DbState) (body : LlmRequest) (requestModel : String)
    (plan : List RoutedModel) (conversation_id : String) (hits : List PolicyHitDraft) :
    Except AppError ChatResponse × DbState × ℕ :=
  let userContent := ((body.messages.getLast?).map LlmMessage.content).getD ""
  let ins := insert_message db
    ⟨conversation_id, "user", userContent, none, some requestModel, none, none, env.userId⟩
  let user_message_id := ins.1
  let db := ins.2
  let db :=
    if hits.isEmpty then db
    else record_policy_hits db (hits.map fun h =>
      ⟨toString user_message_id, h.policy_id, h.policy_name, h.action⟩)
  match route_with_fallbacks env.upstream body plan with
  | (.error e, n) => (.error e, db, n)
  | (.ok (resp, trace), n) =>
    let ins2 := insert_message db
      ⟨conversation_id, "assistant", resp.content, some resp.provider.str, some resp.model,
       resp.tokens_input, resp.tokens_output, env.userId⟩
    (.ok ⟨conversation_id, resp, trace⟩, ins2.2, n)

/-- The non-streaming handler `chat`: validate, plan, inject guardrail,
enforce limits, load policies, ensure the conversation row, evaluate
policies on the last message (failing on a block), apply policy and PII
rewrites, then run `chatTail`.  Returns the HTTP outcome, the final
storage state and the number of upstream calls made. -/
def chat (env : ChatEnv) (db : DbState) (body : LlmRequest) :
    Except AppError ChatResponse × DbState × ℕ :=
  if body.messages.isEmpty then (.error (.badRequest "messages cannot be empty"), db, 0)
  else
    match env.access.routing_plan env.roll env.userId body.model with
    | .error e => (.error e, db, 0)
    | .ok (primary, fallbacks) =>
      let account := env.access.account_for env.userId
      let body :=
        match env.access.guardrail_for env.userId with
        | some prompt => { body with messages := ⟨.system, prompt⟩ :: body.messages }
        | none => body
      match (enforce_limits account primary env.usage).1 with
      | .error e => (.error e, db, 0)
      | .ok _ =>
        let policies := db.policies
        let conversation_id := body.conversation_id.getD env.freshConvId
        let db := ensure_conversation db conversation_id env.userId
        match body.messages.getLast? with
        | none => chatTail env db body body.model (primary :: fallbacks) conversation_id []
        | some last =>
          let eval := evaluate_policies env.rx policies "user" last.content
          match eval.blocked with
          | some b =>
            (.error (.badRequest ("Blocked by policy: " ++ b.policy_name)), db, 0)
          | none =>
            let content1 := eval.redacted.getD last.content
            let content2 := (env.pii content1).1
            let body := { body with messages := setLastContent body.messages content2 }
            chatTail env db body body.model (primary :: fallbacks) conversation_id eval.hits

/-- The events a streaming response emits.  The `done` event's JSON payload
is carried structurally rather than serialized. -/
inductive StreamEvent
  | comment (text : String)
  | data (text : String)
  | done (tokens_input tokens_output : Option ℕ) (cost : Option Frac)
      (provider model : String) (routing : RoutingTrace)
  deriving DecidableEq, Repr

/-- Fuel-driven 64-character chunking of the response body (the code
chunks the UTF-8 bytes; chunk boundaries are irrelevant to every claim). -/
def chunksAux : ℕ → List Char → List (List Char)
  | 0, _ => []
  | _ + 1, [] => []
  | n + 1, l => l.take 64 :: chunksAux n (l.drop 64)

/-- All 64-character chunks of a string. -/
def chunks64 (s : String) : List String :=
  (chunksAux s.data.length s.data).map fun l => ⟨l⟩

/-- The spawned streaming task: emit the start comment, run the fallback
loop; on success emit the chunks, persist user row, policy hits and
assistant row and emit `done`; on failure emit a single
`"Error: <message>"` data event and stop (nothing is persisted). -/
def chatStreamTask (env : ChatEnv) (db : DbState) (body : LlmRequest) (requestModel : String)
    (plan : List RoutedModel) (conversation_id : String) (user_message : String)
    (hits : List PolicyHitDraft) : List StreamEvent × DbState × ℕ :=
  let startEv := StreamEvent.comment "start"
  match route_with_fallbacks env.upstream body plan with
  | (.error e, n) => ([startEv, .data ("Error: " ++ e.message)], db, n)
  | (.ok (resp, trace), n) =>
    let chunkEvs := (chunks64 resp.content).map StreamEvent.data
    let ins := insert_message db
      ⟨conversation_id, "user", user_message, none, some requestModel, none, none, env.userId⟩
    let user_message_id := ins.1
    let db := ins.2
    let db :=
      if hits.isEmpty then db
      else record_policy_hits db (hits.map fun h =>
        ⟨toString user_message_id, h.policy_id, h.policy_name, h.action⟩)
    let ins2 := insert_message db
      ⟨conversation_id, "assistant", resp.content, some resp.provider.str, some resp.model,
       resp.tokens_input, resp.tokens_output, env.userId⟩
    ([startEv] ++ chunkEvs ++
       [.done resp.tokens_input resp.tokens_output resp.cost resp.provider.str resp.model trace],
     ins2.2, n)

/-- The streaming handler `chat_stream`: the same pipeline as `chat`
through policy/PII rewriting, then the spawned task; pipeline failures
before the spawn surface as an HTTP error with no stream. -/
def chat_stream (env : ChatEnv) (db : DbState) (body : LlmRequest) :
    Except AppError (List StreamEvent × DbState × ℕ) :=
  if body.messages.isEmpty then .error (.badRequest "messages cannot be empty")
  else
    match env.access.routing_plan env.roll env.userId body.model with
    | .error e => .error e
    | .ok (primary, fallbacks) =>
      let account := env.access.account_for env.userId
      let body :=
        match env.access.guardrail_for env.userId with
        | some prompt => { body with messages := ⟨.system, prompt⟩ :: body.messages }
        | none => body
      match (enforce_limits account primary env.usage).1 with
      | .error e => .error e
      | .ok _ =>
        let policies := db.policies
        let conversation_id := body.conversation_id.getD env.freshConvId
        let db := ensure_conversation db conversation_id env.userId
        match body.messages.getLast? with
        | none =>
          .ok (chatStreamTask env db body body.model (primary :: fallbacks) conversation_id "" [])
        | some last =>
          let eval := evaluate_policies env.rx policies "user" last.content
          match eval.blocked with
          | some b => .error (.badRequest ("Blocked by policy: " ++ b.policy_name))
          | none =>
            let content1 := eval.redacted.getD last.content
            let content2 := (env.pii content1).1
            let body := { body with messages := setLastContent body.messages content2 }
            let user_message := ((body.messages.getLast?).map LlmMessage.content).getD ""
            .ok (chatStreamTask env db body body.model (primary :: fallbacks) conversation_id
              user_message eval.hits)

deriving instance DecidableEq for Except

/-! ## Shared helper lemmas and concrete fixtures -/

/-- `ensure_conversation` writes no message rows. -/
theorem ensure_conversation_messages (db : DbState) (id : String) (uid : Option String) :
    (ensure_conversation db id uid).messages = db.messages := by
  unfold ensure_conversation
  split <;> rfl

/-- Prepending a message (the guardrail injection) leaves the last message
of a non-empty list unchanged. -/
theorem getLast?_cons_ne_nil (a : α) (l : List α) (h : l ≠ []) :
    (a :: l).getLast? = l.getLast? := by
  cases l with
  | nil => exact absurd rfl h
  | cons x xs => simp [List.getLast?_cons_cons]

/-- A blocking hit returned by the policy engine always carries the
`"block"` action. -/
theorem evalPoliciesGo_blocked_action (rx : RegexOracle) (role : String) :
    ∀ (ps : List Policy) (current : String) (redacted : Option String)
      (hits : List PolicyHitDraft) (b : PolicyHitDraft),
      (evalPoliciesGo rx role ps current redacted hits).blocked = some b → b.action = "block" := by
  intro ps
  induction ps with
  | nil => intro current redacted hits b h; simp [evalPoliciesGo] at h
  | cons p rest ih =>
    intro current redacted hits b h
    simp only [evalPoliciesGo] at h
    by_cases he : p.enabled
    · simp only [he, not_true, if_false] at h
      by_cases ha : policyApplies p role = true
      · simp only [ha, not_true, if_false] at h
        by_cases hm : policyMatches rx p current = true
        · simp only [hm, not_true, if_false] at h
          by_cases hb : p.action = "block"
          · simp only [hb, if_pos] at h
            cases h
            rfl
          · simp only [hb, if_false] at h
            by_cases hr : p.action = "redact"
            · simp only [hr, if_pos] at h
              exact ih _ _ _ b h
            · simp only [hr, if_false] at h
              exact ih _ _ _ b h
        · simp only [hm, not_false_iff, if_true] at h
          exact ih _ _ _ b h
      · simp only [ha, not_false_iff, if_true] at h
        exact ih _ _ _ b h
    · simp only [he, not_false_iff, if_true] at h
      exact ih _ _ _ b h

/-- A seeded blocking policy used by concrete runs. -/
def blockPolicy : Policy :=
  { id := "pol-1", name := "no-secrets", match_type := "contains_any",
    pattern := "secret", action := "block", applies_to := "user", enabled := true }

/-- A redacting policy whose pattern re-matches its own redacted output
(the match is case-insensitive, the literal substitution is not). -/
def redactPolicy : Policy :=
  { id := "pol-2", name := "redact-a", match_type := "contains_any",
    pattern := "A", action := "redact", applies_to := "any", enabled := true }

/-- A storage state holding only the blocking policy. -/
def cDb : DbState :=
  { conversations := [], messages := [], policy_hits := [], policies := [blockPolicy],
    next_message_id := 0 }

/-- A concrete anonymous-caller environment over the seeded catalog whose
upstream always fails with a provider error. -/
def cEnv : ChatEnv :=
  { access := ⟨[], Catalog.seed⟩, roll := 0, userId := none, freshConvId := "conv-1",
    rx := noRegex, pii := fun s => (s, false), usage := .ok ⟨0, 0, 0⟩,
    upstream := fun _ _ => .error (.providerErr "down") }

/-- A concrete request whose last user message trips `blockPolicy`. -/
def cBody : LlmRequest :=
  { conversation_id := none, provider := .openai, model := "gpt-4-turbo-preview",
    messages := [⟨.user, "tell me a secret"⟩], max_tokens := none, temperature := none }

/-! ## C9 — request clamping -/

/-- C9: `clamp_request` caps a present `max_tokens` at 8192 and clamps a
present `temperature` into `[0, 2]`; absent fields stay absent and values
already in range are unchanged.  Concretely, `max_tokens = 9000` becomes
8192, `temperature = 3.0` becomes 2.0 and `temperature = -1.0` becomes
0.0. -/
theorem clamp_request_clamps (req : LlmRequest) :
    (clamp_request req).max_tokens = req.max_tokens.map (fun m => min m 8192)
    ∧ (clamp_request req).temperature = req.temperature.map clampTemp
    ∧ (∀ t, req.temperature = some t → fracLt t (Frac.ofNat 0) = false →
        fracLt (Frac.ofNat 2) t = false → (clamp_request req).temperature = some t)
    ∧ (∀ t, req.temperature = some t →
        fracLe (Frac.ofNat 0) (clampTemp t) = true ∧ fracLe (clampTemp t) (Frac.ofNat 2) = true)
    ∧ (clamp_request { req with max_tokens := some 9000 }).max_tokens = some 8192
    ∧ (clamp_request { req with temperature := some ⟨3, 1⟩ }).temperature = some (Frac.ofNat 2)
    ∧ (clamp_request { req with temperature := some ⟨-1, 1⟩ }).temperature = some (Frac.ofNat 0) := by
  have hmin : ∀ m : ℕ, (if 8192 < m then 8192 else m) = min m 8192 := by
    intro m
    split <;> omega
  obtain ⟨cid, prov, mdl, msgs, mt, tp⟩ := req
  refine ⟨?_, ?_, ?_, ?_, ?_, ?_, ?_⟩
  · cases prov <;> cases mt <;> cases tp <;> simp [clamp_request, hmin]
  · cases prov <;> cases mt <;> cases tp <;> simp [clamp_request, clampTemp]
  · intro t ht h0 h2
    cases ht
    cases prov <;> cases mt <;> simp [clamp_request, clampTemp, h0, h2]
  · intro t ht
    cases ht
    unfold clampTemp
    split
    · exact ⟨by decide, by decide⟩
    · split
      · exact ⟨by decide, by decide⟩
      · next h0 h2 =>
        simp only [fracLt, Frac.ofNat, decide_eq_true_eq, not_lt] at h0 h2
        refine ⟨?_, ?_⟩ <;> simp only [fracLe, Frac.ofNat, decide_eq_true_eq] <;> omega
  · cases prov <;> cases tp <;> simp [clamp_request]
  · cases prov <;> cases mt <;> simp [clamp_request, clampTemp, fracLt, Frac.ofNat]
  · cases prov <;> cases mt <;> simp [clamp_request, clampTemp, fracLt, Frac.ofNat]

/-- Witness for C9 at a concrete request with `max_tokens = 9000` and
`temperature = 3.0`. -/
theorem clamp_request_clamps_witness :
    (clamp_request ⟨none, .openai, "m", [], some 9000, some ⟨3, 1⟩⟩).max_tokens
        = (some 9000).map (fun m => min m 8192)
    ∧ (clamp_request ⟨none, .openai, "m", [], some 9000, some ⟨1, 1⟩⟩).temperature = some ⟨1, 1⟩ := by
  refine ⟨(clamp_request_clamps ⟨none, .openai, "m", [], some 9000, some ⟨3, 1⟩⟩).1, ?_⟩
  exact (clamp_request_clamps ⟨none, .openai, "m", [], some 9000, some ⟨1, 1⟩⟩).2.2.1
    ⟨1, 1⟩ rfl (by decide) (by decide)

/-! ## C8 — alias selection totality -/

/-- The cumulative-selection loop returns a listed target whenever the
roll is below the mathematical sum of the weights. -/
theorem pickLoop_of_lt_total :
    ∀ (ts : List AliasTarget) (roll : ℕ), roll < rawWeightSum ts →
      ∃ t ∈ ts, pickLoop ts roll = some t.model := by
  intro ts
  induction ts with
  | nil => intro roll h; simp [rawWeightSum] at h
  | cons t rest ih =>
    intro roll h
    by_cases hw : roll < t.weight
    · exact ⟨t, List.mem_cons_self t rest, by simp [pickLoop, hw]⟩
    · have hrest : roll - t.weight < rawWeightSum rest := by
        simp [rawWeightSum] at h ⊢
        omega
      obtain ⟨u, hu, hpick⟩ := ih (roll - t.weight) hrest
      exact ⟨u, List.mem_cons_of_mem t hu, by simp [pickLoop, hw, hpick]⟩

/-- The wrapping fold never exceeds its accumulator plus the mathematical
weight sum. -/
theorem sumWeights_foldl_le (ts : List AliasTarget) :
    ∀ acc : ℕ, ts.foldl (fun acc t => (acc + t.weight) % 2 ^ 32) acc ≤ acc + rawWeightSum ts := by
  induction ts with
  | nil => intro acc; simp [rawWeightSum]
  | cons t rest ih =>
    intro acc
    have h1 : (acc + t.weight) % 2 ^ 32 ≤ acc + t.weight := Nat.mod_le _ _
    have h2 := ih ((acc + t.weight) % 2 ^ 32)
    have h3 : rawWeightSum (t :: rest) = t.weight + rawWeightSum rest := by
      simp [rawWeightSum]
    simp only [List.foldl_cons]
    omega

/-- The wrapped u32 total is at most the mathematical sum of the weights. -/
theorem sumWeights_le_raw (ts : List AliasTarget) : sumWeights ts ≤ rawWeightSum ts := by
  simpa using sumWeights_foldl_le ts 0

/-- C8 counterexample: the u32 total of `AliasRule::pick` wraps, so a rule
whose two targets each weigh `2 ^ 31` has a computed total of 0 and `pick`
returns `None` for every roll although the sum of its target weights is
nonzero — refuting "pick() returns None exactly when the sum of target
weights is 0". -/
theorem alias_pick_wrap_counterexample :
    AliasRule.pick ⟨[⟨"model-a", 2 ^ 31⟩, ⟨"model-b", 2 ^ 31⟩]⟩ 0 = none
    ∧ sumWeights [⟨"model-a", 2 ^ 31⟩, ⟨"model-b", 2 ^ 31⟩] = 0
    ∧ rawWeightSum [⟨"model-a", 2 ^ 31⟩, ⟨"model-b", 2 ^ 31⟩] ≠ 0 :=
  ⟨by decide, by decide, by decide⟩

/-- C8 amended: `AliasRule::pick` returns no target exactly when the
rule's total weight AS THE PROGRAM COMPUTES IT — the wrapping u32 sum of
the target weights — is zero: with wrapped total zero it returns `None`
for every roll (and `Catalog::resolve` then treats the requested label as
a direct catalog id), while with positive wrapped total the
cumulative-selection loop always returns one of the rule's targets, so
the fall-through `None` after the loop is unreachable.  (Weights summing
to a multiple of `2 ^ 32` wrap to total 0, so `None` does not imply the
weights themselves are zero.) -/
theorem alias_pick_none_iff_zero_wrapped_weight :
    (∀ (rule : AliasRule) (roll : ℕ), sumWeights rule.targets = 0 → rule.pick roll = none)
    ∧ (∀ (rule : AliasRule) (roll : ℕ), sumWeights rule.targets ≠ 0 →
        ∃ t ∈ rule.targets, rule.pick roll = some t.model)
    ∧ (∀ (ts : List AliasTarget) (roll : ℕ), roll < rawWeightSum ts →
        ∃ t ∈ ts, pickLoop ts roll = some t.model)
    ∧ (∀ (st : CatalogState) (roll : ℕ) (requested : String),
        st.pick_alias roll requested = none → st.resolveTarget roll requested = requested)
    ∧ (∀ (st : CatalogState) (roll : ℕ) (label : String) (rule : AliasRule),
        st.aliases.lookup (lowerStr label) = some rule → sumWeights rule.targets = 0 →
        st.resolveTarget roll label = label) := by
  refine ⟨?_, ?_, pickLoop_of_lt_total, ?_, ?_⟩
  · intro rule roll h
    simp [AliasRule.pick, h]
  · intro rule roll h
    have hmod : roll % sumWeights rule.targets < sumWeights rule.targets :=
      Nat.mod_lt _ (Nat.pos_of_ne_zero h)
    have hlt : roll % sumWeights rule.targets < rawWeightSum rule.targets :=
      lt_of_lt_of_le hmod (sumWeights_le_raw rule.targets)
    obtain ⟨t, ht, hpick⟩ := pickLoop_of_lt_total rule.targets _ hlt
    exact ⟨t, ht, by simp [AliasRule.pick, h, hpick]⟩
  · intro st roll requested h
    simp [CatalogState.resolveTarget, h]
  · intro st roll label rule hrule hzero
    simp [CatalogState.resolveTarget, CatalogState.pick_alias, hrule, AliasRule.pick, hzero]

/-- Witness for the amended C8: a zero-weight rule yields `None`; a rule
with weights `[2, 3]` (wrapped total 5) and roll `4` selects a listed
target, as does the bare loop; in a catalog whose only alias has weight
zero the label resolves to itself. -/
theorem alias_pick_none_iff_zero_wrapped_weight_witness :
    (AliasRule.pick ⟨[⟨"x", 0⟩]⟩ 7 = none)
    ∧ (∃ t ∈ [(⟨"a", 2⟩ : AliasTarget), ⟨"b", 3⟩],
        AliasRule.pick ⟨[⟨"a", 2⟩, ⟨"b", 3⟩]⟩ 4 = some t.model)
    ∧ (∃ t ∈ [(⟨"a", 2⟩ : AliasTarget), ⟨"b", 3⟩], pickLoop [⟨"a", 2⟩, ⟨"b", 3⟩] 4 = some t.model)
    ∧ (CatalogState.resolveTarget ⟨[], [("zero", ⟨[⟨"x", 0⟩]⟩)], [], []⟩ 5 "zero" = "zero") := by
  refine ⟨?_, ?_, ?_, ?_⟩
  · exact alias_pick_none_iff_zero_wrapped_weight.1 ⟨[⟨"x", 0⟩]⟩ 7 (by decide)
  · exact alias_pick_none_iff_zero_wrapped_weight.2.1 ⟨[⟨"a", 2⟩, ⟨"b", 3⟩]⟩ 4 (by decide)
  · exact alias_pick_none_iff_zero_wrapped_weight.2.2.1 [⟨"a", 2⟩, ⟨"b", 3⟩] 4 (by decide)
  · exact alias_pick_none_iff_zero_wrapped_weight.2.2.2.2
      ⟨[], [("zero", ⟨[⟨"x", 0⟩]⟩)], [], []⟩ 5 "zero" ⟨[⟨"x", 0⟩]⟩ (by decide) (by decide)

/-! ## C6 — policy redaction idempotence -/

/-- Generalised invariant for `evalPoliciesGo`: while no enabled applicable
redact policy matches the (then unchanging) current text, the `redacted`
accumulator is returned as-is and no redact-action hit is appended. -/
theorem evalPoliciesGo_no_redact (rx : RegexOracle) (role : String) :
    ∀ (ps : List Policy) (t : String) (red0 : Option String) (hits0 : List PolicyHitDraft),
      (∀ p ∈ ps, p.enabled = true → policyApplies p role = true → p.action = "redact" →
        policyMatches rx p t = false) →
      (∀ hd ∈ hits0, hd.action ≠ "redact") →
      (evalPoliciesGo rx role ps t red0 hits0).redacted = red0
      ∧ ∀ hd ∈ (evalPoliciesGo rx role ps t red0 hits0).hits, hd.action ≠ "redact" := by
  intro ps
  induction ps with
  | nil => intro t red0 hits0 _ hh; exact ⟨rfl, hh⟩
  | cons p rest ih =>
    intro t red0 hits0 h hh
    have hrest : ∀ q ∈ rest, q.enabled = true → policyApplies q role = true →
        q.action = "redact" → policyMatches rx q t = false := fun q hq => h q (List.mem_cons_of_mem p hq)
    have hp := h p (List.mem_cons_self p rest)
    simp only [evalPoliciesGo]
    by_cases he : p.enabled
    · simp only [he, not_true, if_false]
      by_cases ha : policyApplies p role = true
      · simp only [ha, not_true, if_false]
        by_cases hm : policyMatches rx p t = true
        · simp only [hm, not_true, if_false]
          by_cases hb : p.action = "block"
          · simp only [hb, if_pos]
            exact ⟨by simp, hh⟩
          · simp only [hb, if_false]
            by_cases hr : p.action = "redact"
            · exact absurd hm (by simp [hp he ha hr])
            · simp only [hr, if_false]
              refine ih t red0 (hits0 ++ [⟨p.id, p.name, p.action⟩]) hrest ?_
              intro hd hmem
              rcases List.mem_append.mp hmem with hmem | hmem
              · exact hh hd hmem
              · simp at hmem
                subst hmem
                exact hr
        · simp only [hm, not_false_iff, if_true]
          exact ih t red0 hits0 hrest hh
      · simp only [ha, not_false_iff, if_true]
        exact ih t red0 hits0 hrest hh
    · simp only [he, not_false_iff, if_true]
      exact ih t red0 hits0 hrest hh

/-- C6 counterexample: policy redaction is not idempotent.  The enabled
redact policy `contains_any "A"` matches `"a"` case-insensitively while
its case-sensitive literal substitution changes nothing, so the first
evaluation returns result text `"a"` with `redacted = some "a"`, and
re-evaluating that result text again sets `redacted` and appends another
redact hit, contradicting the claim. -/
theorem evaluate_policies_idempotent_counterexample :
    (evaluate_policies noRegex [redactPolicy] "user" "a").redacted = some "a"
    ∧ (evaluate_policies noRegex [redactPolicy] "user"
        (((evaluate_policies noRegex [redactPolicy] "user" "a").redacted).getD "a")).redacted
        = some "a"
    ∧ (evaluate_policies noRegex [redactPolicy] "user"
        (((evaluate_policies noRegex [redactPolicy] "user" "a").redacted).getD "a")).hits
        = [⟨"pol-2", "redact-a", "redact"⟩]
    ∧ some "a" ≠ (none : Option String) := by
  refine ⟨by decide, by decide, by decide, by decide⟩

/-- C6 amended: re-evaluating a text `t` (in particular the result text of
a previous evaluation) performs no new redactions provided no enabled
applicable redact policy still matches `t`: the evaluation's `redacted`
field is `none` and none of its hits carries the redact action.  (The
unconditional idempotence stated by the claim fails, as a redact policy
can match the once-redacted text again.) -/
theorem evaluate_policies_no_rematch_no_redact (rx : RegexOracle) (policies : List Policy)
    (role t : String)
    (h : ∀ p ∈ policies, p.enabled = true → policyApplies p role = true → p.action = "redact" →
      policyMatches rx p t = false) :
    (evaluate_policies rx policies role t).redacted = none
    ∧ ∀ hd ∈ (evaluate_policies rx policies role t).hits, hd.action ≠ "redact" := by
  exact evalPoliciesGo_no_redact rx role policies t none [] h (by intro hd hmem; simp at hmem)

/-- Witness for the amended C6 at a redact policy whose pattern `"zzz"`
does not match the evaluated text `"hello"`. -/
theorem evaluate_policies_no_rematch_no_redact_witness :
    (evaluate_policies noRegex
        [{ id := "pol-3", name := "z", match_type := "contains_any", pattern := "zzz",
           action := "redact", applies_to := "any", enabled := true }] "user" "hello").redacted
        = none
    ∧ ∀ hd ∈ (evaluate_policies noRegex
        [{ id := "pol-3", name := "z", match_type := "contains_any", pattern := "zzz",
           action := "redact", applies_to := "any", enabled := true }] "user" "hello").hits,
        hd.action ≠ "redact" := by
  exact evaluate_policies_no_rematch_no_redact noRegex _ "user" "hello" (by decide)

/-! ## C4 — the fallback chain of a resolved model -/

/-- C4 counterexample state: the primary target `model-a` is admitted
(allowlisted and present in the catalog) but unhealthy, while its fallback
`model-b` is healthy. -/
def c4State : CatalogState :=
  { models := [("model-a", ⟨"openai", "model-a", ⟨1, 1⟩, ⟨1, 1⟩⟩),
               ("model-b", ⟨"openai", "model-b", ⟨1, 1⟩, ⟨1, 1⟩⟩)],
    aliases := [], fallbacks := [("model-a", ["model-b"])],
    health := [("model-a", {}),
               ("model-b", { last_latency_ms := some 5, last_ok := true, successes := 1 })] }

/-- C4 counterexample: health-based sorting selects the fallback
`model-b`, and the admitted primary target `model-a` does NOT appear in
the returned `fallback_chain` (which the claim says must list all admitted
candidates except the selected id, i.e. `["model-a"]`). -/
theorem resolve_fallback_chain_counterexample :
    c4State.resolve 0 "model-a" ["model-a", "model-b"]
      = some ⟨"model-a", "model-b", "openai", ⟨2, 1⟩, []⟩
    ∧ (c4State.resolve 0 "model-a" ["model-a", "model-b"]).map RoutedModel.fallback_chain
      ≠ some ["model-a"]
    ∧ (c4State.models.lookup "model-a").isSome = true := by
  refine ⟨by decide, by decide, by decide⟩

/-- C4 amended: `Catalog::resolve` returns a `fallback_chain` equal to the
allowlist-filtered fallback chain of the canonical target minus the
selected id, in declared order; the primary target's own id is never
included (so when health sorting selects a fallback entry the primary
target id is dropped), and chain ids need not exist in the catalog.  The
selected id itself never appears in the returned chain. -/
theorem resolve_fallback_chain_spec (st : CatalogState) (roll : ℕ) (requested : String)
    (allowlist : List String) (r : RoutedModel)
    (h : st.resolve roll requested allowlist = some r) :
    r.fallback_chain
      = (st.allowedChain roll requested allowlist).filter (fun m => m ≠ r.resolved_model)
    ∧ r.resolved_model ∉ r.fallback_chain := by
  simp only [CatalogState.resolve] at h
  set sorted := stableSortLe
    (fun a b => healthLe (st.healthOf a.id) (st.healthOf b.id))
    ((if (allowlist.map lowerStr).contains
          (lowerStr (st.resolveTarget roll requested)) then
        match st.models.lookup (st.resolveTarget roll requested) with
        | some entry => [entry]
        | none => []
      else []) ++
      (st.allowedChain roll requested allowlist).filterMap fun fb => st.models.lookup fb)
    with hsorted
  rcases hhead : sorted.head? with _ | entry
  · rw [hhead] at h
    cases h
  · rw [hhead] at h
    cases h
    constructor
    · rfl
    · intro hmem
      have := List.of_mem_filter hmem
      simp at this

/-- Witness for the amended C4 at the concrete `c4State` resolution. -/
theorem resolve_fallback_chain_spec_witness :
    (⟨"model-a", "model-b", "openai", ⟨2, 1⟩, []⟩ : RoutedModel).fallback_chain
      = (c4State.allowedChain 0 "model-a" ["model-a", "model-b"]).filter
          (fun m => m ≠ (⟨"model-a", "model-b", "openai", ⟨2, 1⟩, []⟩ : RoutedModel).resolved_model)
    ∧ (⟨"model-a", "model-b", "openai", ⟨2, 1⟩, []⟩ : RoutedModel).resolved_model
      ∉ (⟨"model-a", "model-b", "openai", ⟨2, 1⟩, []⟩ : RoutedModel).fallback_chain :=
  resolve_fallback_chain_spec c4State 0 "model-a" ["model-a", "model-b"]
    ⟨"model-a", "model-b", "openai", ⟨2, 1⟩, []⟩ (by decide)

/-! ## C7 — quota enforcement -/

/-- The usage the code ends up comparing against: the storage result, a
failed read counting as zero usage. -/
def effUsage (u : Except Unit UsageStats) : UsageStats :=
  u.toOption.getD ⟨0, 0, 0⟩

/-- The first case-insensitively matching per-model price cap is exceeded
by the primary candidate's estimate. -/
def capExceeded (acct : AccountAccess) (primary : RoutedModel) : Prop :=
  ∃ cap, acct.model_price_caps.find? (fun c => eqIgnoreCase c.model primary.resolved_model)
      = some cap
    ∧ fracLt (Frac.ofNat cap.max_cents) primary.estimate_cents = true

/-- The request-per-day limit is set and already reached. -/
def reqLimitReached (acct : AccountAccess) (u : Except Unit UsageStats) : Prop :=
  ∃ limit, acct.req_per_day = some limit ∧ (limit : ℤ) ≤ (effUsage u).requests

/-- The tokens-per-day limit is set and already reached by the summed
input and output token usage. -/
def tokLimitReached (acct : AccountAccess) (u : Except Unit UsageStats) : Prop :=
  ∃ limit, acct.tokens_per_day = some limit
    ∧ (limit : ℤ) ≤ (effUsage u).tokens_input + (effUsage u).tokens_output

/-- `effUsage` is what the `unwrap_or` in `enforce_limits` produces. -/
theorem effUsage_def (u : Except Unit UsageStats) :
    u.toOption.getD (⟨0, 0, 0⟩ : UsageStats) = effUsage u := rfl

/-- C7: quota enforcement admits when there is no account; with an account
it rejects exactly when the first case-insensitively matching price cap is
exceeded, or a set request-per-day limit is reached, or a set
tokens-per-day limit is reached by the summed token usage (a failed
storage read counting as zero usage); and when neither daily limit is set
storage is never consulted. -/
theorem enforce_limits_spec :
    (∀ (primary : RoutedModel) (u : Except Unit UsageStats),
      enforce_limits none primary u = (.ok (), false))
    ∧ (∀ (acct : AccountAccess) (primary : RoutedModel) (u : Except Unit UsageStats),
        (enforce_limits (some acct) primary u).1 = .ok ()
          ↔ ¬ (capExceeded acct primary ∨ reqLimitReached acct u ∨ tokLimitReached acct u))
    ∧ (∀ (acct : AccountAccess) (primary : RoutedModel) (u : Except Unit UsageStats),
        acct.req_per_day = none → acct.tokens_per_day = none →
        (enforce_limits (some acct) primary u).2 = false) := by
  refine ⟨fun primary u => rfl, ?_, ?_⟩
  · intro acct primary u
    rcases hc : acct.model_price_caps.find? (fun c => eqIgnoreCase c.model primary.resolved_model)
      with _ | cap
    · rcases hr : acct.req_per_day with _ | rlimit
      · rcases ht : acct.tokens_per_day with _ | tlimit
        · simp [enforce_limits, capExceeded, reqLimitReached, tokLimitReached, hc, hr, ht]
        · by_cases htok : (tlimit : ℤ) ≤ (effUsage u).tokens_input + (effUsage u).tokens_output
          · simp [enforce_limits, capExceeded, reqLimitReached, tokLimitReached, hc, hr, ht,
              effUsage_def, htok]
          · simp [enforce_limits, capExceeded, reqLimitReached, tokLimitReached, hc, hr, ht,
              effUsage_def, htok]
      · by_cases hreq : (rlimit : ℤ) ≤ (effUsage u).requests
        · simp [enforce_limits, capExceeded, reqLimitReached, tokLimitReached, hc, hr,
            effUsage_def, hreq]
        · rcases ht : acct.tokens_per_day with _ | tlimit
          · simp [enforce_limits, capExceeded, reqLimitReached, tokLimitReached, hc, hr, ht,
              effUsage_def, hreq]
          · by_cases htok : (tlimit : ℤ) ≤ (effUsage u).tokens_input + (effUsage u).tokens_output
            · simp [enforce_limits, capExceeded, reqLimitReached, tokLimitReached, hc, hr, ht,
                effUsage_def, hreq, htok]
            · simp [enforce_limits, capExceeded, reqLimitReached, tokLimitReached, hc, hr, ht,
                effUsage_def, hreq, htok]
    · by_cases hcap : fracLt (Frac.ofNat cap.max_cents) primary.estimate_cents = true
      · simp [enforce_limits, capExceeded, hc, hcap]
      · rcases hr : acct.req_per_day with _ | rlimit
        · rcases ht : acct.tokens_per_day with _ | tlimit
          · simp [enforce_limits, capExceeded, reqLimitReached, tokLimitReached, hc, hcap, hr, ht]
          · by_cases htok : (tlimit : ℤ) ≤ (effUsage u).tokens_input + (effUsage u).tokens_output
            · simp [enforce_limits, capExceeded, reqLimitReached, tokLimitReached, hc, hcap, hr,
                ht, effUsage_def, htok]
            · simp [enforce_limits, capExceeded, reqLimitReached, tokLimitReached, hc, hcap, hr,
                ht, effUsage_def, htok]
        · by_cases hreq : (rlimit : ℤ) ≤ (effUsage u).requests
          · simp [enforce_limits, capExceeded, reqLimitReached, tokLimitReached, hc, hcap, hr,
              effUsage_def, hreq]
          · rcases ht : acct.tokens_per_day with _ | tlimit
            · simp [enforce_limits, capExceeded, reqLimitReached, tokLimitReached, hc, hcap, hr,
                ht, effUsage_def, hreq]
            · by_cases htok : (tlimit : ℤ) ≤ (effUsage u).tokens_input + (effUsage u).tokens_output
              · simp [enforce_limits, capExceeded, reqLimitReached, tokLimitReached, hc, hcap, hr,
                  ht, effUsage_def, hreq, htok]
              · simp [enforce_limits, capExceeded, reqLimitReached, tokLimitReached, hc, hcap, hr,
                  ht, effUsage_def, hreq, htok]
  · intro acct primary u hr ht
    rcases hc : acct.model_price_caps.find? (fun c => eqIgnoreCase c.model primary.resolved_model)
      with _ | cap
    · simp [enforce_limits, hc, hr, ht]
    · by_cases hcap : fracLt (Frac.ofNat cap.max_cents) primary.estimate_cents = true
      · simp [enforce_limits, hc, hcap]
      · simp [enforce_limits, hc, hcap, hr, ht]

/-- Witness for C7: no account admits without consulting storage, and the
seeded `guest` account admits a one-cent candidate even when the usage
read fails. -/
theorem enforce_limits_spec_witness :
    (enforce_limits none ⟨"m", "m", "openai", ⟨1, 1⟩, []⟩ (.ok ⟨0, 0, 0⟩) = (.ok (), false))
    ∧ ((enforce_limits (some (seeded_accounts.get ⟨2, by decide⟩))
        ⟨"gpt-4o-mini", "gpt-4o-mini", "openai", ⟨1, 1⟩, []⟩ (.error ())).1 = .ok ()) := by
  constructor
  · exact enforce_limits_spec.1 ⟨"m", "m", "openai", ⟨1, 1⟩, []⟩ (.ok ⟨0, 0, 0⟩)
  · refine (enforce_limits_spec.2.1 (seeded_accounts.get ⟨2, by decide⟩)
      ⟨"gpt-4o-mini", "gpt-4o-mini", "openai", ⟨1, 1⟩, []⟩ (.error ())).mpr ?_
    rintro (⟨cap, hfind, hlt⟩ | ⟨limit, hlim, hle⟩ | ⟨limit, hlim, hle⟩)
    · have hval : (seeded_accounts.get ⟨2, by decide⟩).model_price_caps.find?
          (fun c => eqIgnoreCase c.model
            (⟨"gpt-4o-mini", "gpt-4o-mini", "openai", ⟨1, 1⟩, []⟩ : RoutedModel).resolved_model)
          = some ⟨"gpt-4o-mini", 5⟩ := by decide
      have hcap : cap = ⟨"gpt-4o-mini", 5⟩ := by
        have := hfind.symm.trans hval
        injection this
      subst hcap
      exact absurd hlt (by decide)
    · have hval : (seeded_accounts.get ⟨2, by decide⟩).req_per_day = some 50 := by decide
      have hlimit : limit = 50 := by
        have := hlim.symm.trans hval
        injection this
      subst hlimit
      exact absurd hle (by decide)
    · have hval : (seeded_accounts.get ⟨2, by decide⟩).tokens_per_day = some 50000 := by decide
      have hlimit : limit = 50000 := by
        have := hlim.symm.trans hval
        injection this
      subst hlimit
      exact absurd hle (by decide)

/-! ## C3 — attempts trace and `used_fallback` -/

/-- The canonical attempt-label sequence of a plan: two labels per
candidate, in order. -/
def attemptLabels : List RoutedModel → List String
  | [] => []
  | c :: rest =>
    (c.resolved_model ++ "#" ++ toString (0 + 1))
      :: (c.resolved_model ++ "#" ++ toString (1 + 1)) :: attemptLabels rest

/-- Each candidate contributes exactly two canonical labels. -/
theorem attemptLabels_length (plan : List RoutedModel) :
    (attemptLabels plan).length = 2 * plan.length := by
  induction plan with
  | nil => rfl
  | cons c rest ih => simp [attemptLabels, ih]; omega

/-- Generalised loop invariant for `routeGo`: a successful exit after `k`
further upstream calls returns a trace whose attempts extend the
accumulator by the first `k` canonical labels, with `used_fallback` true
exactly when the flag was set, a fallback candidate was reached, or more
than one call was made. -/
theorem routeGo_ok_spec (oracle : Upstream) (base : LlmRequest) :
    ∀ (plan : List RoutedModel) (idx : ℕ) (attempts : List String) (used_fb : Bool) (n : ℕ)
      (resp : LlmResponse) (trace : RoutingTrace) (n2 : ℕ),
      routeGo oracle base plan idx attempts used_fb n = (.ok (resp, trace), n2) →
      ∃ k, n2 = n + k ∧ 1 ≤ k ∧ k ≤ 2 * plan.length
        ∧ trace.attempts = attempts ++ (attemptLabels plan).take k
        ∧ trace.used_fallback = (used_fb || decide (0 < idx) || decide (1 < k)) := by
  intro plan
  induction plan with
  | nil =>
    intro idx attempts used_fb n resp trace n2 h
    simp [routeGo] at h
  | cons c rest ih =>
    intro idx attempts used_fb n resp trace n2 h
    simp only [routeGo] at h
    rcases hp : provider_from_str c.provider with e | prov
    · rw [hp] at h
      simp at h
    · rw [hp] at h
      simp only at h
      rcases ho : oracle n (clamp_request { base with model := c.resolved_model, provider := prov })
        with e1 | resp1
      · rw [ho] at h
        simp only at h
        by_cases hsf : should_fallback (llmErrorToApp e1) = true
        · simp only [hsf, if_true] at h
          rcases ho2 : oracle (n + 1)
              (clamp_request { base with model := c.resolved_model, provider := prov })
            with e2 | resp2
          · rw [ho2] at h
            simp only at h
            by_cases hc2 : (should_fallback (llmErrorToApp e2) = true ∧ rest ≠ [])
            · rw [if_pos hc2] at h
              obtain ⟨k, hn, hk1, hk2, hatt, hused⟩ := ih (idx + 1)
                (attempts ++ [c.resolved_model ++ "#" ++ toString (0 + 1)]
                  ++ [c.resolved_model ++ "#" ++ toString (1 + 1)]) true (n + 2) resp trace n2 h
              refine ⟨k + 2, by omega, by omega, by simp only [List.length_cons]; omega, ?_, ?_⟩
              · rw [hatt]
                simp [attemptLabels, List.take_succ_cons]
              · rw [hused]
                have h12 : 1 < k + 2 := by omega
                simp [h12]
            · rw [if_neg hc2] at h
              simp at h
          · rw [ho2] at h
            simp only [Prod.mk.injEq, Except.ok.injEq] at h
            obtain ⟨⟨hresp, htrace⟩, hn⟩ := h
            subst hresp
            subst htrace
            refine ⟨2, by omega, by omega, by simp only [List.length_cons]; omega, ?_, ?_⟩
            · simp [attemptLabels, List.take_succ_cons]
            · simp
        · simp only [hsf, if_false] at h
          simp at h
      · rw [ho] at h
        simp only [Prod.mk.injEq, Except.ok.injEq] at h
        obtain ⟨⟨hresp, htrace⟩, hn⟩ := h
        subst hresp
        subst htrace
        refine ⟨1, by omega, by omega, by simp only [List.length_cons]; omega, ?_, ?_⟩
        · simp [attemptLabels, List.take_succ_cons]
        · simp

/-- C3: when the fallback loop succeeds after `n` upstream calls, the
trace has exactly one attempt label per call, in call order (the first `n`
canonical `"<model>#<retry+1>"` labels of the plan), and `used_fallback`
is true exactly when the successful call was not the very first attempt. -/
theorem route_with_fallbacks_trace (oracle : Upstream) (base : LlmRequest)
    (plan : List RoutedModel) (resp : LlmResponse) (trace : RoutingTrace) (n : ℕ)
    (h : route_with_fallbacks oracle base plan = (.ok (resp, trace), n)) :
    trace.attempts.length = n
    ∧ trace.attempts = (attemptLabels plan).take n
    ∧ trace.used_fallback = decide (1 < n) := by
  obtain ⟨k, hn, hk1, hk2, hatt, hused⟩ :=
    routeGo_ok_spec oracle base plan 0 [] false 0 resp trace n h
  have hnk : n = k := by omega
  subst hnk
  refine ⟨?_, by simpa using hatt, by simpa using hused⟩
  rw [hatt]
  simp [List.length_take, attemptLabels_length]
  omega

/-- The base request of the concrete C3 run. -/
def c3Base : LlmRequest :=
  { conversation_id := none, provider := .openai, model := "m",
    messages := [⟨.user, "hi"⟩], max_tokens := none, temperature := none }

/-- A one-candidate plan. -/
def c3Plan : List RoutedModel := [⟨"m", "model-x", "openai", ⟨1, 1⟩, []⟩]

/-- An upstream that fails the first call with a 503 and then succeeds. -/
def c3Oracle : Upstream := fun n _ =>
  if n = 0 then .error (.unexpectedStatus 503 "busy")
  else .ok ⟨.openai, "model-x", "hi", some 3, some 1, none⟩

/-- The response of the successful second call. -/
def c3Resp : LlmResponse := ⟨.openai, "model-x", "hi", some 3, some 1, none⟩

/-- The trace of the concrete C3 run: two attempts, fallback used. -/
def c3Trace : RoutingTrace := ⟨"model-x", "openai", ["model-x#1", "model-x#2"], true⟩

/-- Witness for C3 at the concrete retry-then-succeed run. -/
theorem route_with_fallbacks_trace_witness :
    c3Trace.attempts.length = 2
    ∧ c3Trace.attempts = (attemptLabels c3Plan).take 2
    ∧ c3Trace.used_fallback = decide (1 < 2) :=
  route_with_fallbacks_trace c3Oracle c3Base c3Plan c3Resp c3Trace 2 (by decide)

/-! ## C1 / C5 — blocked dispatches -/

/-- Shared run lemma: a dispatch that passes validation, planning and
limits, and whose last message is blocked by policy evaluation, returns
the `Blocked by policy` bad request with exactly the conversation row
ensured and nothing else changed, and makes no upstream call. -/
theorem chat_blocked_run (env : ChatEnv) (db : DbState) (body : LlmRequest)
    (primary : RoutedModel) (fallbacks : List RoutedModel) (lastMsg : LlmMessage)
    (b : PolicyHitDraft)
    (hne : body.messages ≠ [])
    (hplan : env.access.routing_plan env.roll env.userId body.model = .ok (primary, fallbacks))
    (hlim : (enforce_limits (env.access.account_for env.userId) primary env.usage).1 = .ok ())
    (hlast : body.messages.getLast? = some lastMsg)
    (hblock : (evaluate_policies env.rx db.policies "user" lastMsg.content).blocked = some b) :
    chat env db body
      = (.error (.badRequest ("Blocked by policy: " ++ b.policy_name)),
         ensure_conversation db (body.conversation_id.getD env.freshConvId) env.userId, 0) := by
  have hempty : body.messages.isEmpty = false := by
    cases hm : body.messages with
    | nil => exact absurd hm hne
    | cons x xs => rfl
  cases hg : env.access.guardrail_for env.userId with
  | none =>
    simp only [chat, hempty, Bool.false_eq_true, if_false, hplan, hg, hlim, hlast, hblock]
  | some prompt =>
    simp only [chat, hempty, Bool.false_eq_true, if_false, hplan, hg, hlim]
    rw [getLast?_cons_ne_nil _ _ hne]
    simp only [hlast, hblock]

/-- C1: a dispatch whose last evaluated message is blocked by an enabled
blocking policy fails with a bad request whose message is
`Blocked by policy: <name>` (the returned hit always carries the
`"block"` action), and neither a user-role nor an assistant-role message
row is written; no upstream call is made. -/
theorem chat_blocked_rejects (env : ChatEnv) (db : DbState) (body : LlmRequest)
    (primary : RoutedModel) (fallbacks : List RoutedModel) (lastMsg : LlmMessage)
    (b : PolicyHitDraft)
    (hne : body.messages ≠ [])
    (hplan : env.access.routing_plan env.roll env.userId body.model = .ok (primary, fallbacks))
    (hlim : (enforce_limits (env.access.account_for env.userId) primary env.usage).1 = .ok ())
    (hlast : body.messages.getLast? = some lastMsg)
    (hblock : (evaluate_policies env.rx db.policies "user" lastMsg.content).blocked = some b) :
    (chat env db body).1 = .error (.badRequest ("Blocked by policy: " ++ b.policy_name))
    ∧ b.action = "block"
    ∧ (chat env db body).2.1.messages = db.messages
    ∧ (chat env db body).2.2 = 0 := by
  have hrun := chat_blocked_run env db body primary fallbacks lastMsg b
    hne hplan hlim hlast hblock
  refine ⟨by rw [hrun], ?_, ?_, by rw [hrun]⟩
  · exact evalPoliciesGo_blocked_action env.rx "user" db.policies lastMsg.content none [] b hblock
  · rw [hrun]
    exact ensure_conversation_messages db (body.conversation_id.getD env.freshConvId) env.userId

/-- Witness for C1 at a concrete blocked dispatch over the seeded catalog. -/
theorem chat_blocked_rejects_witness :
    (chat cEnv cDb cBody).1 = .error (.badRequest ("Blocked by policy: " ++ "no-secrets"))
    ∧ (⟨"pol-1", "no-secrets", "block"⟩ : PolicyHitDraft).action = "block"
    ∧ (chat cEnv cDb cBody).2.1.messages = cDb.messages
    ∧ (chat cEnv cDb cBody).2.2 = 0 :=
  chat_blocked_rejects cEnv cDb cBody
    ⟨"gpt-4-turbo-preview", "gpt-4-turbo-preview", "openai", ⟨45, 10⟩, []⟩ []
    ⟨.user, "tell me a secret"⟩ ⟨"pol-1", "no-secrets", "block"⟩
    (by decide) (by decide) (by decide) (by decide) (by decide)

/-- C5 counterexample: in the code the conversation row is ensured BEFORE
policy evaluation, so a policy-blocked request does create a conversation
row (the claim says it creates none). -/
theorem chat_blocked_conversation_counterexample :
    (chat cEnv cDb cBody).1 = .error (.badRequest "Blocked by policy: no-secrets")
    ∧ (chat cEnv cDb cBody).2.1.conversations = [("conv-1", none)]
    ∧ cDb.conversations = [] :=
  ⟨by decide, by decide, by decide⟩

/-- C5 amended: within one dispatch the steps run sequentially, but the
conversation row is ensured before policy evaluation; consequently a
request rejected by a blocking policy still creates its conversation row
(while writing no message rows). -/
theorem chat_blocked_still_creates_conversation (env : ChatEnv) (db : DbState)
    (body : LlmRequest) (primary : RoutedModel) (fallbacks : List RoutedModel)
    (lastMsg : LlmMessage) (b : PolicyHitDraft)
    (hne : body.messages ≠ [])
    (hplan : env.access.routing_plan env.roll env.userId body.model = .ok (primary, fallbacks))
    (hlim : (enforce_limits (env.access.account_for env.userId) primary env.usage).1 = .ok ())
    (hlast : body.messages.getLast? = some lastMsg)
    (hblock : (evaluate_policies env.rx db.policies "user" lastMsg.content).blocked = some b)
    (hfresh : db.conversations.any
      (fun c => c.1 == body.conversation_id.getD env.freshConvId) = false) :
    (chat env db body).1 = .error (.badRequest ("Blocked by policy: " ++ b.policy_name))
    ∧ (chat env db body).2.1.conversations
      = db.conversations ++ [(body.conversation_id.getD env.freshConvId, env.userId)]
    ∧ (chat env db body).2.1.messages = db.messages := by
  have hrun := chat_blocked_run env db body primary fallbacks lastMsg b
    hne hplan hlim hlast hblock
  refine ⟨by rw [hrun], ?_, ?_⟩
  · rw [hrun]
    simp [ensure_conversation, hfresh]
  · rw [hrun]
    exact ensure_conversation_messages db (body.conversation_id.getD env.freshConvId) env.userId

/-- Witness for the amended C5 at the concrete blocked dispatch. -/
theorem chat_blocked_still_creates_conversation_witness :
    (chat cEnv cDb cBody).1 = .error (.badRequest ("Blocked by policy: " ++ "no-secrets"))
    ∧ (chat cEnv cDb cBody).2.1.conversations
      = cDb.conversations ++ [(cBody.conversation_id.getD cEnv.freshConvId, cEnv.userId)]
    ∧ (chat cEnv cDb cBody).2.1.messages = cDb.messages :=
  chat_blocked_still_creates_conversation cEnv cDb cBody
    ⟨"gpt-4-turbo-preview", "gpt-4-turbo-preview", "openai", ⟨45, 10⟩, []⟩ []
    ⟨.user, "tell me a secret"⟩ ⟨"pol-1", "no-secrets", "block"⟩
    (by decide) (by decide) (by decide) (by decide) (by decide) (by decide)

/-! ## C2 — the seeded suspended `guest` account -/

/-- C2 counterexample: in the seeded state, `guest` requesting
`gpt-4o-mini` fails with `model 'gpt-4o-mini' not allowed or not
available`, not with `account suspended` as the claim states: the seeded
catalog has no `gpt-4o-mini` entry and the resolve failure is reported
before the suspension check. -/
theorem guest_request_counterexample :
    seedAccess.resolve_model 0 (some "guest") "gpt-4o-mini"
      = .error (.badRequest ("model " ++ squote ++ "gpt-4o-mini" ++ squote
          ++ " not allowed or not available"))
    ∧ seedAccess.resolve_model 0 (some "guest") "gpt-4o-mini"
      ≠ .error (.badRequest "account suspended") :=
  ⟨by decide, by decide⟩

/-- C2 amended: for the seeded state, when the suspended `guest` account
requests `gpt-4o-mini`, routing-plan construction fails with the bad
request `model 'gpt-4o-mini' not allowed or not available` (the seeded
catalog lacks a `gpt-4o-mini` entry and the catalog-resolve failure
precedes the suspension check); the dispatch makes no upstream call and
writes no rows. -/
theorem guest_request_amended (db : DbState) (roll : ℕ) (rx : RegexOracle)
    (pii : String → String × Bool) (usage : Except Unit UsageStats) (upstream : Upstream)
    (fresh : String) :
    chat ⟨seedAccess, roll, some "guest", fresh, rx, pii, usage, upstream⟩ db
      ⟨none, .openai, "gpt-4o-mini", [⟨.user, "hello"⟩], none, none⟩
      = (.error (.badRequest ("model " ++ squote ++ "gpt-4o-mini" ++ squote
          ++ " not allowed or not available")), db, 0) := rfl

/-! ## C10 — streaming failure path -/

/-- Whether a stream event is an unnamed data event. -/
def StreamEvent.isData : StreamEvent → Bool
  | .data _ => true
  | _ => false

/-- C10: when the execution-with-fallbacks loop fails in the streaming
path, the background task emits exactly the start comment followed by one
data event `Error: <message>` and closes, and persists no user message
row, no policy-hit rows and no assistant message row (the storage state is
returned unchanged). -/
theorem stream_failure_single_error_event (env : ChatEnv) (db : DbState) (body : LlmRequest)
    (requestModel : String) (plan : List RoutedModel) (conversation_id user_message : String)
    (hits : List PolicyHitDraft) (e : AppError) (n : ℕ)
    (h : route_with_fallbacks env.upstream body plan = (.error e, n)) :
    chatStreamTask env db body requestModel plan conversation_id user_message hits
      = ([.comment "start", .data ("Error: " ++ e.message)], db, n)
    ∧ ((chatStreamTask env db body requestModel plan conversation_id user_message hits).1.filter
        StreamEvent.isData).length = 1 := by
  have hrun : chatStreamTask env db body requestModel plan conversation_id user_message hits
      = ([.comment "start", .data ("Error: " ++ e.message)], db, n) := by
    simp only [chatStreamTask, h]
  exact ⟨hrun, by rw [hrun]; rfl⟩

/-- Witness for C10: a stream whose single candidate exhausts both
attempts against an always-failing upstream. -/
theorem stream_failure_single_error_event_witness :
    chatStreamTask cEnv cDb c3Base "m" c3Plan "conv-1" "hello" []
      = ([.comment "start", .data ("Error: " ++ (AppError.upstream "down").message)], cDb, 2)
    ∧ ((chatStreamTask cEnv cDb c3Base "m" c3Plan "conv-1" "hello" []).1.filter
        StreamEvent.isData).length = 1 :=
  stream_failure_single_error_event cEnv cDb c3Base "m" c3Plan "conv-1" "hello" []
    (.upstream "down") 2 (by decide)
